import Mathlib

/-!
A verification development for the Skribbl-Clone game server
(`skribbl-backend`, Rust).  The room runtime, the scoring engine and the
visibility filter are embedded shallowly:

* Rust `u32`/`u64`/`usize` values are modelled as `Nat`; the only places
  where wrap-around or saturation is observable are modelled explicitly
  (`Nat.sub` is saturating subtraction, matching `saturating_sub`; a
  truncating `as u32` cast of a possibly-large value is written `% 2 ^ 32`).
* Rust `f64` values (normalized times, score fractions) are modelled as `ℚ`.
  `f64::floor` is `Int.floor`, and `f64::round` (half away from zero) is
  `rustRound` below.
* `Uuid` values are modelled as `Nat` (`0` stands for `Uuid::nil()`).
* `DateTime<Utc>` values are modelled as `Nat` (milliseconds where the code
  calls `timestamp_millis`, seconds elsewhere); only differences and order
  comparisons of these are ever used.
* `HashMap<Uuid, Player>` is modelled as an association list
  `List (Nat × Player)` whose order is the map's internal iteration order.
  A `HashMap`'s iteration order is arbitrary (random SipHash seed) and in
  particular bears no relation to the players' `joined_at` order.
* Fallible paths (Rust panics, error returns) are modelled with
  `Option`/`Except`.
-/

/-- `GameState` from `models.rs`. -/
inductive GameState where
  | Waiting
  | Playing
  | Finished
deriving DecidableEq

/-- `Player` from `models.rs`.  The fields `state`, `is_connected` and
`is_drawing` are never read by the operations verified here and are omitted;
`joined_at` is a millisecond timestamp. -/
structure Player where
  id : Nat
  username : String
  score : Nat
  joinedAt : Nat
  artistStreak : Nat
deriving DecidableEq

/-- `DrawPath` from `models.rs`.  The room operations verified here only ever
clear the `drawing_paths` vector and never read a path's contents, so the
stroke payload is not modelled. -/
structure DrawPath where
  id : Nat
  playerId : Nat
deriving DecidableEq

/-- `ChatMessage` from `models.rs`. -/
structure ChatMessage where
  id : Nat
  playerId : Nat
  username : String
  message : String
  timestamp : Nat
  isWinnersOnly : Bool
deriving DecidableEq

/-- `Guess` from `models.rs`.  `timestampMillis` is `timestamp.timestamp_millis()`. -/
structure Guess where
  playerId : Nat
  username : String
  word : String
  timestampMillis : Nat
  timeRemaining : Nat
  normalizedTime : ℚ
deriving DecidableEq

/-- `Room` from `models.rs`.  `players` is the backing `HashMap` in its
iteration order.  The `id`, `created_at` and `updated_at` fields are
wall-clock metadata never read by any verified operation and are omitted. -/
structure Room where
  code : String
  hostId : Nat
  players : List (Nat × Player)
  currentDrawer : Option Nat
  word : Option String
  roundNumber : Nat
  maxRounds : Nat
  cycleNumber : Nat
  roundDuration : Nat
  gameState : GameState
  roundStartTime : Option Nat
  roundEndTime : Option Nat
  drawingPaths : List DrawPath
  chatMessages : List ChatMessage
  currentRoundGuesses : List Guess
  winners : List Nat
  maxPlayers : Nat
deriving DecidableEq

/-- `RoundScores` from `models.rs`; `guesser_scores : HashMap<Uuid, u32>` is an
association list in insertion order. -/
structure RoundScores where
  roundNumber : Nat
  word : String
  guesserScores : List (Nat × Nat)
  artistScore : Nat
  artistStreak : Nat
  roundDuration : Nat
  correctGuesses : List Guess
  medianGuessTime : ℚ
  fractionGuessed : ℚ
deriving DecidableEq

/-! ## Scoring engine (`scoring.rs`)

`SCORING_CONSTANTS`: `pmax = 500`, `pmin = 100`, `base = 320`,
`cap_ratio = 0.80`, `rank_bonuses = [100, 60, 30, 0, 0, 0, 0, 0]`,
`tie_window_ms = 200`, `streak_bonus_per_tier = 50`, `max_streak = 5`. -/

/-- `SCORING_CONSTANTS.rank_bonuses`. -/
def rankBonusValues : List Nat := [100, 60, 30, 0, 0, 0, 0, 0]

/-- Rust `f64::round`: round half away from zero. -/
def rustRound (q : ℚ) : ℤ := if q < 0 then -⌊-q + 1 / 2⌋ else ⌊q + 1 / 2⌋

/-- `calculate_time_score` (`scoring.rs`): `floor(pmin + (pmax − pmin) · clamp(t, 0, 1))`
cast to `u32`. -/
def calculate_time_score (normalizedTime : ℚ) : Nat :=
  (⌊(100 : ℚ) + ((500 : ℚ) - (100 : ℚ)) * min (max normalizedTime 0) 1⌋).toNat

/-- The loop of `calculate_rank_bonuses` (`scoring.rs`).  The Rust loop fills a
zero-initialised vector run by run: while `i < len ∧ idx < 8`, the run starting
at position `i` is the maximal block whose timestamps are within
`tie_window_ms = 200` of the timestamp at `i` (`saturating_sub` on `u64`
milliseconds is `Nat.sub`); every entry of the run receives
`rank_bonuses[idx]`, and both `i` and `idx` advance by the run length.  Entries
never reached (because `idx` grew past 8) keep their initial `0`. -/
def rankBonusesGo : List Guess → Nat → List Nat
  | [], _ => []
  | g :: rest, idx =>
    if idx < 8 then
      let tied := rest.takeWhile (fun u => u.timestampMillis - g.timestampMillis ≤ 200)
      List.replicate (tied.length + 1) (rankBonusValues.getD idx 0) ++
        rankBonusesGo (rest.drop tied.length) (idx + (tied.length + 1))
    else
      List.replicate (g :: rest).length 0
termination_by l _ => l.length
decreasing_by
  simp only [List.length_drop, List.length_cons]
  omega

/-- `calculate_rank_bonuses` (`scoring.rs`), on a timestamp-sorted list. -/
def calculate_rank_bonuses (guesses : List Guess) : List Nat :=
  rankBonusesGo guesses 0

/-- Stable insertion step for the timestamp sort: `g` goes in front of the
first element whose timestamp is not smaller, so earlier list elements keep
priority among equal timestamps, exactly as Rust's stable `sort_by`. -/
def insertByTimestamp (g : Guess) : List Guess → List Guess
  | [] => [g]
  | h :: t =>
    if h.timestampMillis < g.timestampMillis then h :: insertByTimestamp g t
    else g :: h :: t

/-- `sorted_guesses.sort_by(|a, b| a.timestamp.cmp(&b.timestamp))`: a stable
sort by timestamp (any stable sort computes the same list). -/
def sortGuessesByTimestamp (l : List Guess) : List Guess :=
  l.foldr insertByTimestamp []

/-- `HashMap::insert` on the association-list model: overwrite if present,
append otherwise. -/
def insertScore (m : List (Nat × Nat)) (k v : Nat) : List (Nat × Nat) :=
  if m.any (fun kv => kv.1 == k) then
    m.map (fun kv => if kv.1 == k then (k, v) else kv)
  else m ++ [(k, v)]

/-- `calculate_guesser_scores` (`scoring.rs`): sort by timestamp, compute rank
bonuses, and give each guesser `time_score + rank_bonus`.  The trailing
parameters mirror the ignored `_round_duration` and `_potential_guessers`. -/
def calculate_guesser_scores (correctGuesses : List Guess) (_rd _pg : Nat) :
    List (Nat × Nat) :=
  if correctGuesses.isEmpty then []
  else
    let sortedGuesses := sortGuessesByTimestamp correctGuesses
    let rankBonuses := calculate_rank_bonuses sortedGuesses
    (sortedGuesses.zip rankBonuses).foldl
      (fun m gb =>
        insertScore m gb.1.playerId (calculate_time_score gb.1.normalizedTime + gb.2))
      []

/-- `calculate_artist_score` (`scoring.rs`):
`raw = base · F · (0.5 + 0.5 · M)`, plus `50 · min(streak, 5)`, rounded, and
capped at `floor(0.80 · top_guesser_score)` (the cap is computed as a `u32`
first, then the `min` is taken in `f64` and cast back to `u32`). -/
def calculate_artist_score (fractionGuessed medianGuessTime : ℚ)
    (topGuesserScore artistStreak : Nat) : Nat :=
  let artistRaw : ℚ := (320 : ℚ) * fractionGuessed * (1 / 2 + 1 / 2 * medianGuessTime)
  let streakBonus : ℚ := ((50 * min artistStreak 5 : Nat) : ℚ)
  let artistWithStreak := artistRaw + streakBonus
  let cap : Nat := (⌊(80 / 100 : ℚ) * (topGuesserScore : ℚ)⌋).toNat
  (min (rustRound artistWithStreak) (cap : ℤ)).toNat

/-- Stable insertion step for the normalized-time sort (`sort_by` on `f64`
with `partial_cmp`). -/
def insertRat (q : ℚ) : List ℚ → List ℚ
  | [] => [q]
  | h :: t => if h < q then h :: insertRat q t else q :: h :: t

/-- Ascending sort of the normalized times. -/
def sortRat (l : List ℚ) : List ℚ :=
  l.foldr insertRat []

/-- `calculate_round_scores` (`scoring.rs`).  `potentialGuessers` is the `N`
passed by the callers (already cast to `u32`). -/
def calculate_round_scores (roundNumber : Nat) (word : String) (roundDuration : Nat)
    (correctGuesses : List Guess) (potentialGuessers : Nat) (artistStreak : Nat) :
    RoundScores :=
  let base : RoundScores :=
    { roundNumber := roundNumber
      word := word
      guesserScores := []
      artistScore := 0
      artistStreak := artistStreak
      roundDuration := roundDuration
      correctGuesses := correctGuesses
      medianGuessTime := 0
      fractionGuessed := 0 }
  if correctGuesses.isEmpty then base
  else
    let f : ℚ := (correctGuesses.length : ℚ) / (potentialGuessers : ℚ)
    let normalizedTimes := sortRat (correctGuesses.map (fun g => g.normalizedTime))
    let medianIndex := normalizedTimes.length / 2
    let median : ℚ :=
      if normalizedTimes.length % 2 = 0 then
        (normalizedTimes.getD (medianIndex - 1) 0 + normalizedTimes.getD medianIndex 0) / 2
      else normalizedTimes.getD medianIndex 0
    let guesserScores := calculate_guesser_scores correctGuesses roundDuration potentialGuessers
    let topGuesserScore := ((guesserScores.map (fun kv => kv.2)).max?).getD 0
    { base with
      fractionGuessed := f
      medianGuessTime := median
      guesserScores := guesserScores
      artistScore := calculate_artist_score f median topGuesserScore artistStreak }

/-- `should_increment_artist_streak` (`scoring.rs`): at least
`⌊N/2⌋ + 1` correct guesses with `time_remaining ≥ ⌊T/2⌋`. -/
def should_increment_artist_streak (correctGuesses : List Guess)
    (roundDuration potentialGuessers : Nat) : Bool :=
  if correctGuesses.isEmpty then false
  else
    let halfwayPoint := roundDuration / 2
    let requiredHalf := potentialGuessers / 2 + 1
    requiredHalf ≤ correctGuesses.countP (fun g => decide (halfwayPoint ≤ g.timeRemaining))

/-- `update_artist_streak` (`scoring.rs`). -/
def update_artist_streak (currentStreak : Nat) (shouldIncrement : Bool) : Nat :=
  if shouldIncrement then min (currentStreak + 1) 5 else 0

/-! Spec-side definition for claim C7, transcribing the claim's words:
starting at `i = 0`, the maximal run of guesses whose timestamps are within
200 ms of the run's first timestamp all receive `rank_bonuses[i]` (`0` when
`i ≥ 8`), and `i` advances by the run size. -/

/-- Claim C7's competition-ranking description, as written. -/
def competitionRankBonusesGo : List Guess → Nat → List Nat
  | [], _ => []
  | g :: rest, i =>
    let run := (rest.takeWhile (fun u => u.timestampMillis - g.timestampMillis ≤ 200)).length + 1
    List.replicate run (if i < 8 then rankBonusValues.getD i 0 else 0) ++
      competitionRankBonusesGo (rest.drop (run - 1)) (i + run)
termination_by l _ => l.length
decreasing_by
  simp only [List.length_drop, List.length_cons]
  omega

/-- Claim C7's description started at rank index 0. -/
def competitionRankBonuses (guesses : List Guess) : List Nat :=
  competitionRankBonusesGo guesses 0

/-- A concrete guess (only the fields the scoring path reads are relevant). -/
def mkGuess (pid ts tr : Nat) : Guess :=
  { playerId := pid
    username := ""
    word := ""
    timestampMillis := ts
    timeRemaining := tr
    normalizedTime := 0 }


lemma length_takeWhile_le' (p : α → Bool) (l : List α) :
    (l.takeWhile p).length ≤ l.length := by
  conv_rhs => rw [← List.takeWhile_append_dropWhile (p := p) (l := l)]
  rw [List.length_append]
  omega

lemma competitionRankBonusesGo_of_ge :
    ∀ (n : Nat) (l : List Guess), l.length ≤ n → ∀ i : Nat, 8 ≤ i →
      competitionRankBonusesGo l i = List.replicate l.length 0 := by
  intro n
  induction n with
  | zero =>
    intro l hl i _
    rw [Nat.le_zero, List.length_eq_zero] at hl
    subst hl
    simp [competitionRankBonusesGo]
  | succ n ih =>
    intro l hl i hi
    match l with
    | [] => simp [competitionRankBonusesGo]
    | g :: rest =>
      have htw := length_takeWhile_le'
        (fun u => decide (u.timestampMillis - g.timestampMillis ≤ 200)) rest
      simp only [competitionRankBonusesGo, Nat.add_sub_cancel]
      rw [if_neg (by omega : ¬ i < 8)]
      rw [ih _ (by
            simp only [List.length_drop]
            simp only [List.length_cons] at hl
            omega) _ (by omega)]
      rw [← List.replicate_add]
      simp only [List.length_drop, List.length_cons]
      congr 1
      omega

lemma rankBonusesGo_eq_competitionGo :
    ∀ (n : Nat) (l : List Guess), l.length ≤ n → ∀ i : Nat,
      rankBonusesGo l i = competitionRankBonusesGo l i := by
  intro n
  induction n with
  | zero =>
    intro l hl i
    rw [Nat.le_zero, List.length_eq_zero] at hl
    subst hl
    simp [rankBonusesGo, competitionRankBonusesGo]
  | succ n ih =>
    intro l hl i
    match l with
    | [] => simp [rankBonusesGo, competitionRankBonusesGo]
    | g :: rest =>
      have htw := length_takeWhile_le'
        (fun u => decide (u.timestampMillis - g.timestampMillis ≤ 200)) rest
      simp only [rankBonusesGo, competitionRankBonusesGo, Nat.add_sub_cancel]
      by_cases hi : i < 8
      · rw [if_pos hi, if_pos hi]
        congr 1
        exact ih _ (by
          simp only [List.length_drop]
          simp only [List.length_cons] at hl
          omega) _
      · rw [if_neg hi, if_neg hi]
        rw [competitionRankBonusesGo_of_ge rest.length _
          (by simp only [List.length_drop]; omega) _ (by omega)]
        rw [← List.replicate_add]
        simp only [List.length_drop, List.length_cons]
        congr 1
        omega

/-- Claim C7: for every list of correct guesses sorted by timestamp, the rank
bonuses follow competition ranking under a 200 ms tie window — starting at
`i = 0`, the maximal run of guesses whose timestamps are within 200 ms of the
run's first timestamp all receive `rank_bonuses[i]` (`0` when `i ≥ 8`), and
`i` advances by the run size; in particular a 2-way tie for first (here at
0 ms and 150 ms) makes the next distinct guess (400 ms) receive the
third-place bonus `30`. -/
theorem rank_bonuses_follow_competition_ranking :
    (∀ guesses : List Guess, calculate_rank_bonuses guesses = competitionRankBonuses guesses)
    ∧ calculate_rank_bonuses [mkGuess 1 0 50, mkGuess 2 150 50, mkGuess 3 400 40]
        = [100, 100, 30] := by
  constructor
  · intro gs
    exact rankBonusesGo_eq_competitionGo gs.length gs le_rfl 0
  · simp [calculate_rank_bonuses, rankBonusesGo, mkGuess, rankBonusValues]

/-- Claim C8: the artist score equals
`min(round(320 · F · (0.5 + 0.5 · M) + 50 · min(s, 5)), ⌊0.80 · max_guesser_score⌋)`
— hence is always at most `⌊0.80 · max_guesser_score⌋` — and with zero correct
guesses every guesser score and the artist score are `0`. -/
theorem artist_score_formula_cap_and_zero_guesses :
    ∀ (f m : ℚ) (top s : Nat), 0 ≤ f → 0 ≤ m →
      ((calculate_artist_score f m top s : ℤ)
          = min (round ((320 : ℚ) * f * (1 / 2 + 1 / 2 * m) + ((50 * min s 5 : Nat) : ℚ)))
              ⌊(80 / 100 : ℚ) * (top : ℚ)⌋
        ∧ calculate_artist_score f m top s ≤ (⌊(80 / 100 : ℚ) * (top : ℚ)⌋).toNat)
      ∧ ∀ (rn : Nat) (w : String) (rd pg st : Nat),
          (calculate_round_scores rn w rd [] pg st).guesserScores = []
          ∧ (calculate_round_scores rn w rd [] pg st).artistScore = 0 := by
  intro f m top s hf hm
  have hhalf : (0 : ℚ) ≤ 1 / 2 + 1 / 2 * m := by
    have : (0 : ℚ) ≤ 1 / 2 * m := by positivity
    linarith
  have hraw : (0 : ℚ) ≤ (320 : ℚ) * f * (1 / 2 + 1 / 2 * m) := by
    have h320f : (0 : ℚ) ≤ (320 : ℚ) * f := by positivity
    exact mul_nonneg h320f hhalf
  have hws : (0 : ℚ) ≤ (320 : ℚ) * f * (1 / 2 + 1 / 2 * m) + ((50 * min s 5 : Nat) : ℚ) :=
    add_nonneg hraw (Nat.cast_nonneg _)
  have hcapQ : (0 : ℚ) ≤ (80 / 100 : ℚ) * (top : ℚ) := by positivity
  have hcap : (0 : ℤ) ≤ ⌊(80 / 100 : ℚ) * (top : ℚ)⌋ := Int.floor_nonneg.mpr hcapQ
  have hround : rustRound ((320 : ℚ) * f * (1 / 2 + 1 / 2 * m) + ((50 * min s 5 : Nat) : ℚ))
      = round ((320 : ℚ) * f * (1 / 2 + 1 / 2 * m) + ((50 * min s 5 : Nat) : ℚ)) := by
    rw [rustRound, if_neg (by linarith), round_eq]
  have hroundNonneg : (0 : ℤ)
      ≤ round ((320 : ℚ) * f * (1 / 2 + 1 / 2 * m) + ((50 * min s 5 : Nat) : ℚ)) := by
    rw [round_eq]
    exact Int.floor_nonneg.mpr (by linarith)
  refine ⟨⟨?_, ?_⟩, ?_⟩
  · show ((min (rustRound _) (((⌊(80 / 100 : ℚ) * (top : ℚ)⌋).toNat : Nat) : ℤ)).toNat : ℤ) = _
    rw [hround, Int.toNat_of_nonneg hcap, Int.toNat_of_nonneg (le_min hroundNonneg hcap)]
  · show (min (rustRound _) (((⌊(80 / 100 : ℚ) * (top : ℚ)⌋).toNat : Nat) : ℤ)).toNat ≤ _
    rw [hround, Int.toNat_of_nonneg hcap]
    exact Int.toNat_le_toNat (min_le_right _ _)
  · intro rn w rd pg st
    constructor <;> simp [calculate_round_scores]

/-- Claim C9: the artist streak after the round equals `min(s + 1, 5)` if and
only if the number of correct guesses with `time_remaining ≥ ⌊T/2⌋` is at
least `⌊N/2⌋ + 1`, and equals `0` otherwise. -/
theorem artist_streak_update_rule :
    ∀ (gs : List Guess) (T N s : Nat),
      update_artist_streak s (should_increment_artist_streak gs T N)
          = (if N / 2 + 1 ≤ gs.countP (fun g => decide (T / 2 ≤ g.timeRemaining))
             then min (s + 1) 5 else 0)
      ∧ (update_artist_streak s (should_increment_artist_streak gs T N) = min (s + 1) 5
          ↔ N / 2 + 1 ≤ gs.countP (fun g => decide (T / 2 ≤ g.timeRemaining))) := by
  intro gs T N s
  have hcount : should_increment_artist_streak gs T N
      = decide (N / 2 + 1 ≤ gs.countP (fun g => decide (T / 2 ≤ g.timeRemaining))) := by
    cases gs with
    | nil => simp [should_increment_artist_streak]
    | cons a l => simp [should_increment_artist_streak]
  have hmain : update_artist_streak s (should_increment_artist_streak gs T N)
      = (if N / 2 + 1 ≤ gs.countP (fun g => decide (T / 2 ≤ g.timeRemaining))
         then min (s + 1) 5 else 0) := by
    rw [update_artist_streak, hcount]
    by_cases hc : N / 2 + 1 ≤ gs.countP (fun g => decide (T / 2 ≤ g.timeRemaining)) <;>
      simp [hc]
  refine ⟨hmain, ?_⟩
  rw [hmain]
  have hminpos : 1 ≤ min (s + 1) 5 := le_min (by omega) (by omega)
  by_cases hc : N / 2 + 1 ≤ gs.countP (fun g => decide (T / 2 ≤ g.timeRemaining))
  · simp [hc]
  · simp only [if_neg hc]
    constructor
    · intro h
      omega
    · intro h
      exact absurd h hc

theorem artist_score_formula_witness :
    (0 : ℚ) ≤ 0 ∧
    (((calculate_artist_score 0 0 400 2 : ℤ)
        = min (round ((320 : ℚ) * 0 * (1 / 2 + 1 / 2 * 0) + ((50 * min 2 5 : Nat) : ℚ)))
            ⌊(80 / 100 : ℚ) * ((400 : Nat) : ℚ)⌋
      ∧ calculate_artist_score 0 0 400 2 ≤ (⌊(80 / 100 : ℚ) * ((400 : Nat) : ℚ)⌋).toNat)
      ∧ ∀ (rn : Nat) (w : String) (rd pg st : Nat),
          (calculate_round_scores rn w rd [] pg st).guesserScores = []
          ∧ (calculate_round_scores rn w rd [] pg st).artistScore = 0) :=
  ⟨le_refl 0, artist_score_formula_cap_and_zero_guesses 0 0 400 2 (le_refl 0) (le_refl 0)⟩

/-! ## State store and visibility filter (`state.rs`) -/

/-- `AppState::is_player_winner` (`state.rs`): the recipient is the current
drawer or is in the winners list. -/
def isPlayerWinner (room : Room) (pid : Nat) : Bool :=
  (match room.currentDrawer with
   | some d => d == pid
   | none => false) || room.winners.contains pid

/-- The per-recipient view computed by `broadcast_room_state_filtered`
(`state.rs`): winners see the room unchanged; for non-winners the word is
hidden and winners-only chat entries are removed. -/
def filterRoomFor (room : Room) (pid : Nat) : Room :=
  if isPlayerWinner room pid then room
  else
    { room with
      word := none
      chatMessages := room.chatMessages.filter (fun m => !m.isWinnersOnly) }

/-- `AppState::create_room` (`state.rs`): note `round_number = 0`,
`max_rounds = 3`, `cycle_number = 1`, state `Waiting`, everything else empty. -/
def create_room (code : String) (roundDuration : Nat) (maxPlayers : Nat) (hostId : Nat) :
    Room :=
  { code := code
    hostId := hostId
    players := []
    currentDrawer := none
    word := none
    roundNumber := 0
    maxRounds := 3
    cycleNumber := 1
    roundDuration := roundDuration
    gameState := GameState.Waiting
    roundStartTime := none
    roundEndTime := none
    drawingPaths := []
    chatMessages := []
    currentRoundGuesses := []
    winners := []
    maxPlayers := maxPlayers }

/-- `AppState::add_player_to_room` (`state.rs`): reject when full or when the
username is taken (case-sensitive); otherwise the player enters the map (the
position in the iteration order is arbitrary; appended here). -/
def add_player_to_room (room : Room) (p : Player) : Except String Room :=
  if room.players.length ≥ room.maxPlayers then .error "Room is full"
  else if room.players.any (fun kv => kv.2.username == p.username) then
    .error "Username already taken in this room"
  else .ok { room with players := room.players ++ [(p.id, p)] }

/-- The `POST /createRoom` flow (`main.rs::create_room`): create the room with
`max_players = 8` and the caller as host, then add the host as a player with
zero score and streak. -/
def createRoomEndpoint (code : String) (roundDuration : Nat) (hostId : Nat)
    (username : String) (joinedAt : Nat) : Except String Room :=
  add_player_to_room (create_room code roundDuration 8 hostId)
    { id := hostId, username := username, score := 0, joinedAt := joinedAt, artistStreak := 0 }

/-- `AppState::transfer_host_ownership` (`state.rs`): the new host is
`players.keys().next()` — the first key in the map's iteration order. -/
def transfer_host_ownership (room : Room) : Except String (Room × Nat) :=
  match room.players.head? with
  | some kv => .ok ({ room with hostId := kv.1 }, kv.1)
  | none => .error "No players available to become host"

/-- `AppState::remove_player_from_room` (`state.rs`): drop the player and
report whether the room became empty (in which case the caller deletes it). -/
def remove_player_from_room (room : Room) (pid : Nat) :
    Except String (Room × Player × Bool) :=
  match room.players.find? (fun kv => kv.1 == pid) with
  | none => .error "Player not found in room"
  | some kv =>
    let remaining := room.players.filter (fun x => x.1 != pid)
    .ok ({ room with players := remaining }, kv.2, remaining.isEmpty)

/-- `handle_leave_room` (`websocket/rooms.rs`), state part: remove the player;
`.ok none` models the empty room being deleted; if the leaver was the host
(checked on the post-removal room, whose `host_id` is unchanged), transfer
ownership to the first remaining player in map iteration order. -/
def handle_leave_room (room : Room) (pid : Nat) : Except String (Option Room) :=
  match remove_player_from_room room pid with
  | .error e => .error e
  | .ok (r1, _player, roomWillBeEmpty) =>
    if roomWillBeEmpty then .ok none
    else
      if r1.hostId == pid then
        match transfer_host_ownership r1 with
        | .ok (r2, _newHost) => .ok (some r2)
        | .error _ => .ok (some r1)
      else .ok (some r1)

/-! Spec-side definition (claims C2 and C4): the "earliest-joined" or "first
player by ascending join order" member, via a stable sort on `joined_at`. -/

/-- Stable insertion by `joinedAt` (earlier list positions win ties),
matching Rust's stable `sort_by(|a, b| a.joined_at.cmp(&b.joined_at))`. -/
def insertByJoinedAt (p : Player) : List Player → List Player
  | [] => [p]
  | h :: t => if h.joinedAt < p.joinedAt then h :: insertByJoinedAt p t else p :: h :: t

/-- Stable ascending sort by `joinedAt`. -/
def sortPlayersByJoinedAt (l : List Player) : List Player :=
  l.foldr insertByJoinedAt []

/-- The id of the earliest-joined player of a player map (spec-side notion
used by claims C2 and C4). -/
def earliestJoinedId (players : List (Nat × Player)) : Option Nat :=
  ((sortPlayersByJoinedAt (players.map (fun kv => kv.2))).head?).map (fun p => p.id)

/-! ## Room handlers (`websocket/rooms.rs`) -/

/-- `handle_start_game` (`websocket/rooms.rs`).  With fewer than 2 players an
`Error` goes back to the sender and the room is untouched (modelled as
`.error`).  Otherwise the drawer is `players.keys().next().unwrap()` — the
first key in the map's iteration order — and the round state is reset.  The
handler never checks `game_state`. -/
def handle_start_game (room : Room) : Except String Room :=
  if room.players.length < 2 then .error "Need at least 2 players to start"
  else
    match room.players.head? with
    | none => .error "unreachable: players.keys().next() on an empty map"
    | some kv =>
      .ok { room with
        gameState := GameState.Playing
        word := none
        currentDrawer := some kv.1
        roundNumber := 1
        cycleNumber := 1
        roundStartTime := none
        roundEndTime := none
        winners := [kv.1]
        currentRoundGuesses := []
        drawingPaths := [] }

/-- `handle_update_settings` (`websocket/rooms.rs`): clamp `max_rounds` to
`[1, 5]` and assign.  The handler reads no sender identity. -/
def handle_update_settings (room : Room) (maxRounds : Nat) : Room :=
  { room with maxRounds := min (max maxRounds 1) 5 }

/-- The `ClientMessage::UpdateSettings` dispatch (`main.rs::handle_socket`):
the sender's identity is ignored — no host check exists on this path. -/
def updateSettingsDispatch (room : Room) (_senderId : Nat) (maxRounds : Nat) : Room :=
  handle_update_settings room maxRounds

/-- The data captured by the deadline task spawned in `handle_word_selected`
(`websocket/rooms.rs`): the current drawer, the selected word and the round
duration. -/
structure TimerTask where
  capturedDrawer : Option Nat
  capturedWord : String
  duration : Nat
deriving DecidableEq

/-- `handle_word_selected` (`websocket/rooms.rs`): silently dropped when a word
already exists, the game is not `Playing`, or there is no drawer; otherwise
set the word and the round window and schedule the deadline task. -/
def handle_word_selected (room : Room) (word : String) (now : Nat) :
    Option (Room × TimerTask) :=
  if room.word.isSome then none
  else if room.gameState ≠ GameState.Playing then none
  else if room.currentDrawer.isNone then none
  else
    some
      ({ room with
          word := some word
          roundStartTime := some now
          roundEndTime := some (now + room.roundDuration) },
        { capturedDrawer := room.currentDrawer
          capturedWord := word
          duration := room.roundDuration })

/-- The wake-up guard of the deadline task (`websocket/rooms.rs`): the round is
ended iff the game is still `Playing`, a drawer exists and equals the captured
one, and the word still equals the captured one. -/
def timerFires (current : Room) (task : TimerTask) : Bool :=
  current.gameState == GameState.Playing
    && current.currentDrawer.isSome
    && current.currentDrawer == task.capturedDrawer
    && current.word == some task.capturedWord

/-! ## Chat handlers (`websocket/chat.rs`) -/

/-- Who a broadcast primitive of `state.rs` targets. -/
inductive FanoutTarget where
  | all
  | winnersOnly
deriving DecidableEq

/-- The outbound payloads relevant to the visibility claims. -/
inductive ServerMsg where
  | gameStateUpdate (room : Room)
  | chatMessage (m : ChatMessage)
deriving DecidableEq

/-- Push onto the chat ring: append, then drop the oldest entry when the
length exceeds 10 (`chat_messages.push(..); if len > 10 { remove(0) }`). -/
def pushChatMessage (room : Room) (m : ChatMessage) : Room :=
  let cs := room.chatMessages ++ [m]
  { room with chatMessages := if cs.length > 10 then cs.tail else cs }

/-- `handle_winners_chat` (`websocket/chat.rs`): a non-winner sender is
ignored; a winner's message is stamped `is_winners_only = true`, pushed onto
the chat ring, and then **both** the `GameStateUpdate` carrying the updated
room (word included, no filtering) and the chat line itself are broadcast with
`broadcast_to_room`, i.e. to every connection in the room. -/
def handle_winners_chat (room : Room) (senderId : Nat) (username text : String)
    (msgId ts : Nat) : Room × List (FanoutTarget × ServerMsg) :=
  let isWinner := room.winners.contains senderId ||
    (match room.currentDrawer with
     | some d => d == senderId
     | none => false)
  if !isWinner then (room, [])
  else
    let chatMsg : ChatMessage :=
      { id := msgId
        playerId := senderId
        username := username
        message := text
        timestamp := ts
        isWinnersOnly := true }
    let updated := pushChatMessage room chatMsg
    (updated,
      [(FanoutTarget.all, ServerMsg.gameStateUpdate updated),
        (FanoutTarget.all, ServerMsg.chatMessage chatMsg)])

/-- The payloads a given room member's connection receives from a list of
fan-outs: `broadcast_to_room` reaches every connection of the room,
`broadcast_to_winners` only those classified winners. -/
def deliveredPayloads (room : Room) (pid : Nat)
    (sends : List (FanoutTarget × ServerMsg)) : List ServerMsg :=
  (sends.filter (fun ts =>
    match ts.1 with
    | FanoutTarget.all => true
    | FanoutTarget.winnersOnly => isPlayerWinner room pid)).map (fun ts => ts.2)

/-- Claim C1's prohibited content, as the claim words it: a payload carrying
the room's word or any chat entry flagged winners-only. -/
def revealsHiddenContent (msg : ServerMsg) : Bool :=
  match msg with
  | ServerMsg.gameStateUpdate r =>
    r.word.isSome || r.chatMessages.any (fun m => m.isWinnersOnly)
  | ServerMsg.chatMessage m => m.isWinnersOnly

/-! ## Round end (`websocket/chat.rs::handle_round_end` and
`websocket/rooms.rs::handle_end_round`) -/

/-- Fallback player for the (in-bounds) `ordered[next_idx]` indexing. -/
def defaultPlayer : Player :=
  { id := 0, username := "", score := 0, joinedAt := 0, artistStreak := 0 }

/-- The guesser part of `update_player_scores` (`websocket/chat.rs`): for each
`(player_id, score)` entry, `players.get_mut(player_id).score += score`. -/
def bumpGuesserScores (players : List (Nat × Player)) (guesserScores : List (Nat × Nat)) :
    List (Nat × Player) :=
  guesserScores.foldl
    (fun ps kv =>
      ps.map (fun q =>
        if q.1 == kv.1 then (q.1, { q.2 with score := q.2.score + kv.2 }) else q))
    players

/-- `update_player_scores` (`websocket/chat.rs`): add the guesser scores, then
add the artist score to the drawer and update the drawer's streak.  The
`players.len() - 1` subtraction is unobservable when the drawer is absent from
the map, so the saturating model is exact. -/
def update_player_scores (room : Room) (scores : RoundScores) : Room :=
  let ps1 := bumpGuesserScores room.players scores.guesserScores
  match room.currentDrawer with
  | none => { room with players := ps1 }
  | some drawerId =>
    let potentialGuessers := (room.players.length - 1) % 2 ^ 32
    let shouldInc := should_increment_artist_streak scores.correctGuesses
      scores.roundDuration potentialGuessers
    let ps2 := ps1.map (fun q =>
      if q.1 == drawerId then
        (q.1,
          { q.2 with
            score := q.2.score + scores.artistScore
            artistStreak := update_artist_streak q.2.artistStreak shouldInc })
      else q)
    { room with players := ps2 }

/-- The drawer-rotation and round-reset block of
`websocket/rooms.rs::handle_end_round` (acting on the post-score room `r2` and
the `joined_at`-ordered player list): pick the next drawer cyclically, open a
new cycle when the rotation wraps to index 0, force a new cycle if
`round_number` exceeded the player count, reset the per-round state with
`winners = {next drawer}`, and finish the game once
`cycle_number > max_rounds`. -/
def endRoundRotateRooms (r2 : Room) (ordered : List Player) : Room :=
  let nextDrawer :=
    match r2.currentDrawer with
    | some cur =>
      (ordered.getD (((ordered.findIdx? (fun p => p.id == cur)).getD 0 + 1) % ordered.length)
        defaultPlayer).id
    | none => (ordered.head?.map (fun p => p.id)).getD 0
  let isNewCycle : Bool :=
    match r2.currentDrawer with
    | some cur => ((ordered.findIdx? (fun p => p.id == cur)).getD 0 + 1) % ordered.length == 0
    | none => false
  let cycleRound1 : Nat × Nat :=
    if isNewCycle then (r2.cycleNumber + 1, 1) else (r2.cycleNumber, r2.roundNumber + 1)
  let cycleRound2 : Nat × Nat :=
    if cycleRound1.2 > ordered.length then (cycleRound1.1 + 1, 1) else cycleRound1
  let r3 : Room := { r2 with
    currentDrawer := some nextDrawer
    word := none
    roundStartTime := none
    roundEndTime := none
    currentRoundGuesses := []
    drawingPaths := []
    winners := [nextDrawer]
    roundNumber := cycleRound2.2
    cycleNumber := cycleRound2.1 }
  if r3.cycleNumber > r3.maxRounds then { r3 with gameState := GameState.Finished } else r3

/-- The drawer-rotation and round-reset block of
`websocket/chat.rs::handle_round_end` — a verbatim duplicate of the block in
`rooms.rs` as far as the room state is concerned (the two differ only in the
order of their broadcasts). -/
def endRoundRotateChat (r2 : Room) (ordered : List Player) : Room :=
  let nextDrawer :=
    match r2.currentDrawer with
    | some cur =>
      (ordered.getD (((ordered.findIdx? (fun p => p.id == cur)).getD 0 + 1) % ordered.length)
        defaultPlayer).id
    | none => (ordered.head?.map (fun p => p.id)).getD 0
  let isNewCycle : Bool :=
    match r2.currentDrawer with
    | some cur => ((ordered.findIdx? (fun p => p.id == cur)).getD 0 + 1) % ordered.length == 0
    | none => false
  let cycleRound1 : Nat × Nat :=
    if isNewCycle then (r2.cycleNumber + 1, 1) else (r2.cycleNumber, r2.roundNumber + 1)
  let cycleRound2 : Nat × Nat :=
    if cycleRound1.2 > ordered.length then (cycleRound1.1 + 1, 1) else cycleRound1
  let r3 : Room := { r2 with
    currentDrawer := some nextDrawer
    word := none
    roundStartTime := none
    roundEndTime := none
    currentRoundGuesses := []
    drawingPaths := []
    winners := [nextDrawer]
    roundNumber := cycleRound2.2
    cycleNumber := cycleRound2.1 }
  if r3.cycleNumber > r3.maxRounds then { r3 with gameState := GameState.Finished } else r3

/-- `handle_end_round` (`websocket/rooms.rs`), room-state transformation:
score the round (`potential_guessers = players.len().saturating_sub(1)` cast
to `u32`), apply player score and streak updates, and rotate; an empty
`ordered` list triggers the guarded early return that leaves the post-score
room unchanged. -/
def endRoundRooms (room : Room) : Room :=
  let potentialGuessers := (room.players.length - 1) % 2 ^ 32
  let artistStreak :=
    ((room.players.find? (fun kv => kv.1 == room.currentDrawer.getD 0)).map
      (fun kv => kv.2.artistStreak)).getD 0
  let scores := calculate_round_scores room.roundNumber (room.word.getD "")
    room.roundDuration room.currentRoundGuesses potentialGuessers artistStreak
  let r2 := update_player_scores room scores
  let ordered := sortPlayersByJoinedAt (r2.players.map (fun kv => kv.2))
  if ordered.isEmpty then r2 else endRoundRotateRooms r2 ordered

/-- `handle_round_end` (`websocket/chat.rs`), room-state transformation:
identical to `endRoundRooms` except that `potential_guessers` is the
unchecked `players.len() - 1` (wrapping in a release build when the room is
empty) and that nothing guards the rotation against an empty player list —
with a current drawer set, `(cur_idx + 1) % ordered.len()` then divides by
zero (`none`). -/
def endRoundChat (room : Room) : Option Room :=
  let potentialGuessers :=
    if room.players.length = 0 then (2 ^ 64 - 1) % 2 ^ 32
    else (room.players.length - 1) % 2 ^ 32
  let artistStreak :=
    ((room.players.find? (fun kv => kv.1 == room.currentDrawer.getD 0)).map
      (fun kv => kv.2.artistStreak)).getD 0
  let scores := calculate_round_scores room.roundNumber (room.word.getD "")
    room.roundDuration room.currentRoundGuesses potentialGuessers artistStreak
  let r2 := update_player_scores room scores
  let ordered := sortPlayersByJoinedAt (r2.players.map (fun kv => kv.2))
  if ordered.isEmpty && r2.currentDrawer.isSome then none
  else some (endRoundRotateChat r2 ordered)

lemma insertByJoinedAt_length (p : Player) (l : List Player) :
    (insertByJoinedAt p l).length = l.length + 1 := by
  induction l with
  | nil => rfl
  | cons h t ih =>
    simp only [insertByJoinedAt]
    split
    · simp only [List.length_cons, ih]
    · simp only [List.length_cons]

lemma sortPlayersByJoinedAt_length (l : List Player) :
    (sortPlayersByJoinedAt l).length = l.length := by
  induction l with
  | nil => rfl
  | cons h t ih =>
    simp only [sortPlayersByJoinedAt, List.foldr_cons] at ih ⊢
    rw [insertByJoinedAt_length, ih, List.length_cons]

lemma bumpGuesserScores_length (gs : List (Nat × Nat)) (ps : List (Nat × Player)) :
    (bumpGuesserScores ps gs).length = ps.length := by
  induction gs generalizing ps with
  | nil => rfl
  | cons kv t ih =>
    simp only [bumpGuesserScores, List.foldl_cons] at ih ⊢
    rw [ih, List.length_map]

lemma update_player_scores_players_length (room : Room) (scores : RoundScores) :
    (update_player_scores room scores).players.length = room.players.length := by
  unfold update_player_scores
  cases hd : room.currentDrawer with
  | none => simp [bumpGuesserScores_length]
  | some d => simp [bumpGuesserScores_length, List.length_map]

lemma endRound_common (room : Room) (scores : RoundScores)
    (h : room.players.length ≠ 0) :
    (if (sortPlayersByJoinedAt ((update_player_scores room scores).players.map
          (fun kv => kv.2))).isEmpty
        && (update_player_scores room scores).currentDrawer.isSome then none
     else some (endRoundRotateChat (update_player_scores room scores)
        (sortPlayersByJoinedAt ((update_player_scores room scores).players.map
          (fun kv => kv.2)))))
    = some (if (sortPlayersByJoinedAt ((update_player_scores room scores).players.map
          (fun kv => kv.2))).isEmpty
        then update_player_scores room scores
        else endRoundRotateRooms (update_player_scores room scores)
          (sortPlayersByJoinedAt ((update_player_scores room scores).players.map
            (fun kv => kv.2)))) := by
  have hlen : (sortPlayersByJoinedAt ((update_player_scores room scores).players.map
      (fun kv => kv.2))).length ≠ 0 := by
    rw [sortPlayersByJoinedAt_length, List.length_map, update_player_scores_players_length]
    exact h
  have hempty : (sortPlayersByJoinedAt ((update_player_scores room scores).players.map
      (fun kv => kv.2))).isEmpty = false := by
    cases hl : sortPlayersByJoinedAt ((update_player_scores room scores).players.map
        (fun kv => kv.2)) with
    | nil => exact absurd (by rw [hl]; rfl) hlen
    | cons a l => rfl
  rw [hempty]
  simp only [Bool.false_and, Bool.false_eq_true, if_false]
  have hrot : endRoundRotateChat = endRoundRotateRooms := rfl
  rw [hrot]

/-- Claim C10: the two round-end implementations — the everyone-guessed path
in `chat.rs` (`handle_round_end`) and the explicit/timer path in `rooms.rs`
(`handle_end_round`) — compute the same room-state transformation for every
starting room state with at least one player: identical scores, drawer
rotation, round and cycle counters, per-round resets and Finished transition. -/
theorem round_end_paths_equivalent :
    ∀ room : Room, room.players ≠ [] → endRoundChat room = some (endRoundRooms room) := by
  intro room h
  have hlen : ¬ room.players.length = 0 := by
    simpa [List.length_eq_zero] using h
  unfold endRoundChat endRoundRooms
  rw [if_neg hlen]
  exact endRound_common room _ hlen

deriving instance DecidableEq for Except

/-- A concrete player record. -/
def mkPlayer (id joinedAt : Nat) (name : String) : Player :=
  { id := id, username := name, score := 0, joinedAt := joinedAt, artistStreak := 0 }

/-- A concrete empty waiting room. -/
def baseRoom : Room :=
  { code := "ABC123"
    hostId := 1
    players := []
    currentDrawer := none
    word := none
    roundNumber := 0
    maxRounds := 3
    cycleNumber := 1
    roundDuration := 60
    gameState := GameState.Waiting
    roundStartTime := none
    roundEndTime := none
    drawingPaths := []
    chatMessages := []
    currentRoundGuesses := []
    winners := []
    maxPlayers := 8 }

/-- A playing room whose map iteration order ([1 then 2]) disagrees with the
join order (player 2 joined first). -/
def roomC2 : Room :=
  { baseRoom with players := [(1, mkPlayer 1 30 "late"), (2, mkPlayer 2 10 "early")] }

/-- A mid-round playing room: drawer 1 has picked "cat", player 2 has not
guessed yet. -/
def roomC1 : Room :=
  { baseRoom with
    players := [(1, mkPlayer 1 10 "alice"), (2, mkPlayer 2 20 "bob")]
    currentDrawer := some 1
    winners := [1]
    word := some "cat"
    gameState := GameState.Playing
    roundNumber := 1 }

/-- A 3-player room hosted by player 1; the map iteration order is
`[1, 3, 2]` while the join order is `1, 2, 3`. -/
def roomC4 : Room :=
  { baseRoom with
    hostId := 1
    players := [(1, mkPlayer 1 1 "host"), (3, mkPlayer 3 30 "carol"), (2, mkPlayer 2 20 "bob")] }

/-- A playing room with a drawer and no word yet (about to select one). -/
def roomC6 : Room :=
  { baseRoom with
    players := [(1, mkPlayer 1 10 "alice"), (2, mkPlayer 2 20 "bob")]
    currentDrawer := some 1
    winners := [1]
    gameState := GameState.Playing
    roundNumber := 1 }

/-- `roomC6` right after `WordSelected("cat")` at time 100. -/
def roomC6After : Room :=
  { roomC6 with
    word := some "cat"
    roundStartTime := some 100
    roundEndTime := some (100 + 60) }

/-- The deadline task captured when "cat" is selected in `roomC6`. -/
def taskC6 : TimerTask :=
  { capturedDrawer := some 1, capturedWord := "cat", duration := 60 }

/-- Claim C5 (code bug): `handle_update_settings` is documented "host-only"
and the spec requires a non-host sender to leave the room unchanged, but
neither the dispatcher nor the handler checks the sender: sender 2 (not the
host, which is 1) changes `max_rounds` from 3 to 5. -/
theorem update_settings_ignores_sender :
    roomC4.hostId = 1
    ∧ (updateSettingsDispatch roomC4 2 5).maxRounds = 5
    ∧ roomC4.maxRounds = 3
    ∧ decide (updateSettingsDispatch roomC4 2 5 = roomC4) = false := by
  decide

/-- Claim C6: a deadline task scheduled by `WordSelected` captures the room's
drawer, word and duration; at wake-up it ends the round if and only if the
game is still `Playing`, the drawer equals the captured one and the word
equals the captured one; on any mismatch it exits without effect. -/
theorem word_selected_timer_guard :
    ∀ (room : Room) (word : String) (now : Nat) (r1 : Room) (task : TimerTask),
      handle_word_selected room word now = some (r1, task) →
      task.duration = room.roundDuration
      ∧ task.capturedWord = word
      ∧ task.capturedDrawer = room.currentDrawer
      ∧ (∀ current : Room,
          timerFires current task = true
            ↔ current.gameState = GameState.Playing
              ∧ current.currentDrawer = task.capturedDrawer
              ∧ current.word = some task.capturedWord) := by
  intro room word now r1 task h
  unfold handle_word_selected at h
  by_cases h1 : room.word.isSome
  · rw [if_pos h1] at h
    exact absurd h (by simp)
  · rw [if_neg h1] at h
    by_cases h2 : room.gameState ≠ GameState.Playing
    · rw [if_pos h2] at h
      exact absurd h (by simp)
    · rw [if_neg h2] at h
      by_cases h3 : room.currentDrawer.isNone
      · rw [if_pos h3] at h
        exact absurd h (by simp)
      · rw [if_neg h3] at h
        simp only [Option.some_inj, Prod.mk.injEq] at h
        obtain ⟨-, htask⟩ := h
        subst htask
        refine ⟨rfl, rfl, rfl, ?_⟩
        intro current
        simp only [timerFires, Bool.and_eq_true, beq_iff_eq]
        constructor
        · rintro ⟨⟨⟨hg, -⟩, hdr⟩, hw⟩
          exact ⟨hg, hdr, hw⟩
        · rintro ⟨hg, hdr, hw⟩
          refine ⟨⟨⟨hg, ?_⟩, hdr⟩, hw⟩
          rw [hdr]
          cases hcd : room.currentDrawer with
          | none => exact absurd (by rw [hcd]; rfl) h3
          | some d => rfl

theorem word_selected_timer_guard_witness :
    handle_word_selected roomC6 "cat" 100 = some (roomC6After, taskC6)
    ∧ (taskC6.duration = roomC6.roundDuration
      ∧ (timerFires roomC6After taskC6 = true
          ↔ roomC6After.gameState = GameState.Playing
            ∧ roomC6After.currentDrawer = taskC6.capturedDrawer
            ∧ roomC6After.word = some taskC6.capturedWord)) :=
  ⟨by decide,
    (word_selected_timer_guard roomC6 "cat" 100 roomC6After taskC6 (by decide)).1,
    ((word_selected_timer_guard roomC6 "cat" 100 roomC6After taskC6 (by decide)).2.2.2) roomC6After⟩

theorem round_end_paths_equivalent_witness :
    roomC1.players ≠ [] ∧ endRoundChat roomC1 = some (endRoundRooms roomC1) :=
  ⟨by decide, round_end_paths_equivalent roomC1 (by decide)⟩

/-- Claim C1, counterexample: in `roomC1` player 2 is a non-winner, yet after
the artist (player 1) sends a winners-only chat line, the `WinnersChat`
handler's fan-out delivers player 2 a `GameStateUpdate` carrying the full room
— word `"cat"` included and the winners-only entry present — as well as the
winners-only chat line itself. -/
theorem winners_chat_leaks_to_non_winner :
    isPlayerWinner roomC1 2 = false
    ∧ ((deliveredPayloads roomC1 2
          (handle_winners_chat roomC1 1 "alice" "nice guess" 99 500).2).all
        revealsHiddenContent) = true
    ∧ (deliveredPayloads roomC1 2
        (handle_winners_chat roomC1 1 "alice" "nice guess" 99 500).2).length = 2 := by
  decide

/-- Claim C1, amended: snapshots produced by the per-recipient filter
(`broadcast_room_state_filtered`) do hide the word and the winners-only chat
from non-winners and leave every other field unchanged; the `WinnersChat`
handler, however, broadcasts the updated room unfiltered — and the
winners-only chat line — to every connection in the room. -/
theorem filtered_snapshots_redact_for_non_winners :
    ∀ (room : Room) (pid : Nat), isPlayerWinner room pid = false →
      ((filterRoomFor room pid).word = none
        ∧ (filterRoomFor room pid).chatMessages
            = room.chatMessages.filter (fun m => !m.isWinnersOnly)
        ∧ (filterRoomFor room pid).code = room.code
        ∧ (filterRoomFor room pid).hostId = room.hostId
        ∧ (filterRoomFor room pid).players = room.players
        ∧ (filterRoomFor room pid).currentDrawer = room.currentDrawer
        ∧ (filterRoomFor room pid).roundNumber = room.roundNumber
        ∧ (filterRoomFor room pid).maxRounds = room.maxRounds
        ∧ (filterRoomFor room pid).cycleNumber = room.cycleNumber
        ∧ (filterRoomFor room pid).roundDuration = room.roundDuration
        ∧ (filterRoomFor room pid).gameState = room.gameState
        ∧ (filterRoomFor room pid).roundStartTime = room.roundStartTime
        ∧ (filterRoomFor room pid).roundEndTime = room.roundEndTime
        ∧ (filterRoomFor room pid).drawingPaths = room.drawingPaths
        ∧ (filterRoomFor room pid).currentRoundGuesses = room.currentRoundGuesses
        ∧ (filterRoomFor room pid).winners = room.winners
        ∧ (filterRoomFor room pid).maxPlayers = room.maxPlayers)
      ∧ (∀ (senderId : Nat) (username text : String) (msgId ts : Nat),
          ((handle_winners_chat room senderId username text msgId ts).2.all
            (fun s => s.1 == FanoutTarget.all)) = true) := by
  intro room pid h
  constructor
  · unfold filterRoomFor
    rw [h]
    exact ⟨rfl, rfl, rfl, rfl, rfl, rfl, rfl, rfl, rfl, rfl, rfl, rfl, rfl, rfl, rfl,
      rfl, rfl⟩
  · intro senderId username text msgId ts
    unfold handle_winners_chat
    by_cases hw : (room.winners.contains senderId ||
        (match room.currentDrawer with
         | some d => d == senderId
         | none => false)) = true
    · rw [hw]
      rfl
    · rw [Bool.not_eq_true] at hw
      rw [hw]
      rfl

theorem filtered_snapshots_redact_witness :
    isPlayerWinner roomC1 2 = false
    ∧ (filterRoomFor roomC1 2).word = none
    ∧ (filterRoomFor roomC1 2).players = roomC1.players :=
  ⟨by decide,
    ((filtered_snapshots_redact_for_non_winners roomC1 2 (by decide)).1).1,
    ((filtered_snapshots_redact_for_non_winners roomC1 2 (by decide)).1).2.2.2.2.1⟩

/-- Claim C2, counterexample: in `roomC2` (Waiting, two players) the first
player by ascending join order is player 2 (`joined_at = 10`), but
`StartGame` picks `players.keys().next()` — player 1, the head of the map's
iteration order. -/
theorem start_game_picks_map_order_not_join_order :
    roomC2.gameState = GameState.Waiting
    ∧ 2 ≤ roomC2.players.length
    ∧ earliestJoinedId roomC2.players = some 2
    ∧ (handle_start_game roomC2).map Room.currentDrawer = .ok (some 1)
    ∧ decide ((some 1 : Option Nat) = some 2) = false := by
  decide

/-- Claim C2, amended: with at least 2 players, `StartGame` moves the room to
`Playing` with the drawer being the **first player in the map's iteration
order**, `round_number = cycle_number = 1`, no word, no timers,
`winners = {drawer}` and cleared paths and guesses; with fewer than 2 players
the room is unchanged and an `Error` goes back to the sender. -/
theorem start_game_amended :
    ∀ room : Room,
      (room.players.length < 2 →
        handle_start_game room = .error "Need at least 2 players to start")
      ∧ (∀ (did : Nat) (p : Player), room.players.head? = some (did, p) →
          2 ≤ room.players.length →
          handle_start_game room = .ok { room with
            gameState := GameState.Playing
            word := none
            currentDrawer := some did
            roundNumber := 1
            cycleNumber := 1
            roundStartTime := none
            roundEndTime := none
            winners := [did]
            currentRoundGuesses := []
            drawingPaths := [] }) := by
  intro room
  constructor
  · intro h
    unfold handle_start_game
    rw [if_pos h]
  · intro did p hh hlen
    unfold handle_start_game
    rw [if_neg (by omega), hh]

theorem start_game_amended_witness :
    (handle_start_game { baseRoom with players := [(7, mkPlayer 7 3 "solo")] }
        = .error "Need at least 2 players to start")
    ∧ handle_start_game roomC2 = .ok { roomC2 with
        gameState := GameState.Playing
        word := none
        currentDrawer := some 1
        roundNumber := 1
        cycleNumber := 1
        roundStartTime := none
        roundEndTime := none
        winners := [1]
        currentRoundGuesses := []
        drawingPaths := [] } :=
  ⟨(start_game_amended _).1 (by decide),
    (start_game_amended roomC2).2 1 (mkPlayer 1 30 "late") rfl (by decide)⟩

/-- Claim C3, counterexample: the room returned by `POST /createRoom` has one
player but `round_number = 0`, outside the claimed interval `[1, |players|]`. -/
theorem fresh_room_round_number_zero :
    (createRoomEndpoint "ABC123" 60 7 "alice" 5).map
        (fun r => (r.roundNumber, r.players.length, r.cycleNumber))
      = .ok (0, 1, 1)
    ∧ decide ((1 : Nat) ≤ 0) = false := by
  decide

/-- Claim C4, counterexample: player 1 (the host) leaves `roomC4`; the
earliest-joined remaining player is 2 (`joined_at = 20`), but the new host is
3 — the head of the map's iteration order among the remaining players. -/
theorem host_transfer_picks_map_order_not_join_order :
    roomC4.hostId = 1
    ∧ (handle_leave_room roomC4 1).map (fun r => r.map Room.hostId) = .ok (some 3)
    ∧ earliestJoinedId (roomC4.players.filter (fun x => x.1 != 1)) = some 2
    ∧ decide ((3 : Nat) = 2) = false := by
  decide

lemma any_filter_of_any (l : List (Nat × Player)) (hostId pid : Nat)
    (hne : hostId ≠ pid) (h : l.any (fun kv => kv.1 == hostId) = true) :
    (l.filter (fun x => x.1 != pid)).any (fun kv => kv.1 == hostId) = true := by
  rw [List.any_eq_true] at h ⊢
  obtain ⟨x, hx, hbeq⟩ := h
  refine ⟨x, ?_, hbeq⟩
  rw [List.mem_filter]
  refine ⟨hx, ?_⟩
  have hx1 : x.1 = hostId := beq_iff_eq.mp hbeq
  rw [bne_iff_ne, hx1]
  exact hne

/-- Claim C4, amended: when a player leaves and the room stays non-empty, the
departing host is replaced by the **first remaining player in the map's
iteration order** (not necessarily the earliest-joined); a non-host departure
keeps the host; and in both cases a host who was a member stays a member. -/
theorem leave_room_host_amended :
    ∀ (room : Room) (pid : Nat) (r' : Room),
      handle_leave_room room pid = .ok (some r') →
      (room.hostId = pid → r'.players.head?.map (fun kv => kv.1) = some r'.hostId)
      ∧ (room.hostId ≠ pid → r'.hostId = room.hostId)
      ∧ ((room.players.any (fun kv => kv.1 == room.hostId) = true ∨ room.hostId = pid) →
          r'.players.any (fun kv => kv.1 == r'.hostId) = true) := by
  intro room pid r' h
  unfold handle_leave_room at h
  split at h
  · simp at h
  · rename_i r1 player roomWillBeEmpty heq
    unfold remove_player_from_room at heq
    split at heq
    · simp at heq
    · rename_i kv hfind
      simp only [Except.ok.injEq, Prod.mk.injEq] at heq
      obtain ⟨hr1, -, hempt⟩ := heq
      have hHostEq : r1.hostId = room.hostId := by rw [← hr1]
      have hPlayersEq : r1.players = room.players.filter (fun x => x.1 != pid) := by
        rw [← hr1]
      by_cases he : roomWillBeEmpty = true
      · rw [if_pos he] at h
        simp at h
      · rw [if_neg he] at h
        have hfne : r1.players ≠ [] := by
          intro hcontra
          apply he
          rw [← hempt, ← hPlayersEq, hcontra]
          rfl
        by_cases hh : (r1.hostId == pid) = true
        · rw [if_pos hh] at h
          have hhost : room.hostId = pid := by
            rw [← hHostEq]
            exact beq_iff_eq.mp hh
          unfold transfer_host_ownership at h
          cases hps : r1.players with
          | nil => exact absurd hps hfne
          | cons a t =>
            rw [hps] at h
            simp only [List.head?_cons, Except.ok.injEq, Option.some.injEq] at h
            subst h
            refine ⟨fun _ => ?_, fun hne => absurd hhost hne, fun _ => ?_⟩
            · simp [hps]
            · simp [hps, List.any_cons]
        · rw [if_neg hh] at h
          simp only [Except.ok.injEq, Option.some.injEq] at h
          subst h
          have hne : room.hostId ≠ pid := by
            intro hc
            apply hh
            rw [hHostEq]
            exact beq_iff_eq.mpr hc
          refine ⟨fun hc => absurd hc hne, fun _ => hHostEq, fun hmem => ?_⟩
          rcases hmem with hmem | hmem
          · rw [hPlayersEq, hHostEq]
            exact any_filter_of_any room.players room.hostId pid hne hmem
          · exact absurd hmem hne

/-- `roomC4` after its host (player 1) has left. -/
def roomC4After : Room :=
  { roomC4 with
    hostId := 3
    players := [(3, mkPlayer 3 30 "carol"), (2, mkPlayer 2 20 "bob")] }

theorem leave_room_host_amended_witness :
    handle_leave_room roomC4 1 = .ok (some roomC4After)
    ∧ roomC4After.players.head?.map (fun kv => kv.1) = some roomC4After.hostId
    ∧ roomC4After.players.any (fun kv => kv.1 == roomC4After.hostId) = true :=
  ⟨by decide,
    (leave_room_host_amended roomC4 1 roomC4After (by decide)).1 rfl,
    (leave_room_host_amended roomC4 1 roomC4After (by decide)).2.2 (Or.inr rfl)⟩

lemma update_player_scores_cycleNumber (room : Room) (scores : RoundScores) :
    (update_player_scores room scores).cycleNumber = room.cycleNumber := by
  unfold update_player_scores
  cases room.currentDrawer <;> rfl

lemma endRoundRotateRooms_fields (r2 : Room) (ordered : List Player)
    (hord : 1 ≤ ordered.length) (hcyc : 1 ≤ r2.cycleNumber) :
    (endRoundRotateRooms r2 ordered).players = r2.players
    ∧ 1 ≤ (endRoundRotateRooms r2 ordered).roundNumber
    ∧ (endRoundRotateRooms r2 ordered).roundNumber ≤ ordered.length
    ∧ 1 ≤ (endRoundRotateRooms r2 ordered).cycleNumber := by
  simp only [endRoundRotateRooms]
  split_ifs <;> refine ⟨rfl, ?_, ?_, ?_⟩ <;> simp only [] <;> omega

lemma endRound_core_bounds (room : Room) (scores : RoundScores)
    (h : room.players.length ≠ 0) (hcyc : 1 ≤ room.cycleNumber) :
    ((if (sortPlayersByJoinedAt ((update_player_scores room scores).players.map
          (fun kv => kv.2))).isEmpty
        then update_player_scores room scores
        else endRoundRotateRooms (update_player_scores room scores)
          (sortPlayersByJoinedAt ((update_player_scores room scores).players.map
            (fun kv => kv.2)))).players.length = room.players.length)
    ∧ 1 ≤ (if (sortPlayersByJoinedAt ((update_player_scores room scores).players.map
          (fun kv => kv.2))).isEmpty
        then update_player_scores room scores
        else endRoundRotateRooms (update_player_scores room scores)
          (sortPlayersByJoinedAt ((update_player_scores room scores).players.map
            (fun kv => kv.2)))).roundNumber
    ∧ (if (sortPlayersByJoinedAt ((update_player_scores room scores).players.map
          (fun kv => kv.2))).isEmpty
        then update_player_scores room scores
        else endRoundRotateRooms (update_player_scores room scores)
          (sortPlayersByJoinedAt ((update_player_scores room scores).players.map
            (fun kv => kv.2)))).roundNumber
        ≤ (if (sortPlayersByJoinedAt ((update_player_scores room scores).players.map
          (fun kv => kv.2))).isEmpty
        then update_player_scores room scores
        else endRoundRotateRooms (update_player_scores room scores)
          (sortPlayersByJoinedAt ((update_player_scores room scores).players.map
            (fun kv => kv.2)))).players.length
    ∧ 1 ≤ (if (sortPlayersByJoinedAt ((update_player_scores room scores).players.map
          (fun kv => kv.2))).isEmpty
        then update_player_scores room scores
        else endRoundRotateRooms (update_player_scores room scores)
          (sortPlayersByJoinedAt ((update_player_scores room scores).players.map
            (fun kv => kv.2)))).cycleNumber := by
  set r2 := update_player_scores room scores with hr2
  set ordered := sortPlayersByJoinedAt (r2.players.map (fun kv => kv.2)) with hordered
  have hplen : r2.players.length = room.players.length := by
    rw [hr2, update_player_scores_players_length]
  have hlen : ordered.length = room.players.length := by
    rw [hordered, sortPlayersByJoinedAt_length, List.length_map, hplen]
  have hne : ordered.isEmpty = false := by
    cases ho : ordered with
    | nil =>
      rw [ho] at hlen
      exact absurd hlen.symm h
    | cons a t => rfl
  rw [hne]
  simp only [Bool.false_eq_true, if_false]
  have hc2 : 1 ≤ r2.cycleNumber := by
    rw [hr2, update_player_scores_cycleNumber]
    exact hcyc
  obtain ⟨hp, h1, h2, h3⟩ := endRoundRotateRooms_fields r2 ordered (by omega) hc2
  refine ⟨?_, h1, ?_, h3⟩
  · rw [hp, hplen]
  · rw [hp]
    omega

/-- Claim C3, amended: a freshly created room has `round_number = 0` (outside
`[1, |players|]`) and `cycle_number = 1`; `StartGame` establishes
`round_number = 1 ∈ [1, |players|]` and `cycle_number = 1`, and every
round end on a room with at least one player re-establishes
`round_number ∈ [1, |players|]` and keeps `cycle_number ≥ 1`. -/
theorem round_cycle_bounds_amended :
    (∀ (code : String) (rd mp host : Nat),
        (create_room code rd mp host).roundNumber = 0
        ∧ (create_room code rd mp host).cycleNumber = 1)
    ∧ (∀ (room r' : Room), handle_start_game room = .ok r' →
        r'.roundNumber = 1 ∧ r'.cycleNumber = 1 ∧ 1 ≤ r'.players.length)
    ∧ (∀ room : Room, room.players.length ≠ 0 → 1 ≤ room.cycleNumber →
        1 ≤ (endRoundRooms room).roundNumber
        ∧ (endRoundRooms room).roundNumber ≤ (endRoundRooms room).players.length
        ∧ 1 ≤ (endRoundRooms room).cycleNumber) := by
  refine ⟨fun code rd mp host => ⟨rfl, rfl⟩, ?_, ?_⟩
  · intro room r' h
    unfold handle_start_game at h
    by_cases hl : room.players.length < 2
    · rw [if_pos hl] at h
      simp at h
    · rw [if_neg hl] at h
      cases hh : room.players.head? with
      | none =>
        rw [hh] at h
        simp at h
      | some kv =>
        rw [hh] at h
        simp only [Except.ok.injEq] at h
        subst h
        refine ⟨rfl, rfl, ?_⟩
        show 1 ≤ room.players.length
        omega
  · intro room h hcyc
    simp only [endRoundRooms]
    exact ⟨(endRound_core_bounds room _ h hcyc).2.1,
      (endRound_core_bounds room _ h hcyc).2.2.1,
      (endRound_core_bounds room _ h hcyc).2.2.2⟩

theorem round_cycle_bounds_witness :
    ((create_room "ABC123" 60 8 1).roundNumber = 0
      ∧ (create_room "ABC123" 60 8 1).cycleNumber = 1)
    ∧ (1 ≤ (endRoundRooms roomC1).roundNumber
      ∧ (endRoundRooms roomC1).roundNumber ≤ (endRoundRooms roomC1).players.length
      ∧ 1 ≤ (endRoundRooms roomC1).cycleNumber) :=
  ⟨round_cycle_bounds_amended.1 "ABC123" 60 8 1,
    round_cycle_bounds_amended.2.2 roomC1 (by decide) (by decide)⟩
